import Mathlib

/-!
Verification of the deep-equality comparator of the `check` package
(`check.go`).  The comparator is embedded shallowly:

* `GoFloat` models a `float64` as NaN, +Inf, -Inf or an exact rational
  (rounding of finite arithmetic is not modelled; the only arithmetic the
  comparator performs on floats is one subtraction and order comparisons,
  which the rational model reproduces faithfully for the properties below).
* Go values are modelled as heap cells: an `Env` maps a cell address to a
  `Cell` (a type tag plus a payload) and a type tag to its `TyShape`
  (the reflect kind together with element/field types).  A `reflect.Value`
  is an `RVal`: either the zero (invalid) Value or a flag `canAddr`
  (reflect's `CanAddr`) plus the address of the cell holding the data
  (reflect's `UnsafeAddr`).  This mirrors how the source keys its visited
  set on `UnsafeAddr` pairs and how addressability propagates: struct
  fields and array elements inherit it, slice elements and pointer targets
  always have it, map values and interface contents never do.
* `dve` is `deepValueEqual` with an explicit fuel parameter; `.out` means
  the fuel ran out (the recursion did not complete within that depth),
  `.panicked` models a Go runtime panic (calling `Type`/`Complex` on an
  inappropriate `reflect.Value`).  The visited list is threaded through
  exactly like the shared mutable map of the source.
-/

/-- A `float64`: NaN, +Inf, -Inf, or a finite value (exact rational). -/
inductive GoFloat where
  | nan
  | pinf
  | ninf
  | fin (q : ℚ)
deriving DecidableEq

/-- `math.IsNaN`. -/
def isNaN : GoFloat → Bool
  | .nan => true
  | _ => false

/-- `math.IsInf(x, 1)`. -/
def isPosInf : GoFloat → Bool
  | .pinf => true
  | _ => false

/-- `math.IsInf(x, -1)`. -/
def isNegInf : GoFloat → Bool
  | .ninf => true
  | _ => false

/-- IEEE `<` on doubles: NaN is unordered, -Inf below everything else. -/
def goLt : GoFloat → GoFloat → Bool
  | .fin a, .fin b => decide (a < b)
  | .fin _, .pinf => true
  | .ninf, .fin _ => true
  | .ninf, .pinf => true
  | _, _ => false

/-- IEEE `<=` on doubles. -/
def goLe (a b : GoFloat) : Bool :=
  goLt a b ||
    (match a, b with
     | .fin x, .fin y => decide (x = y)
     | .pinf, .pinf => true
     | .ninf, .ninf => true
     | _, _ => false)

/-- IEEE negation. -/
def goNeg : GoFloat → GoFloat
  | .nan => .nan
  | .pinf => .ninf
  | .ninf => .pinf
  | .fin q => .fin (-q)

/-- IEEE subtraction (finite results are exact in this model). -/
def goSub : GoFloat → GoFloat → GoFloat
  | .fin a, .fin b => .fin (a - b)
  | .fin _, .pinf => .ninf
  | .fin _, .ninf => .pinf
  | .pinf, .fin _ => .pinf
  | .pinf, .ninf => .pinf
  | .ninf, .fin _ => .ninf
  | .ninf, .pinf => .ninf
  | _, _ => .nan

/-- Source `abs`: `if x < 0 { return -x }; return x` (so `abs(NaN) = NaN`). -/
def goAbs (x : GoFloat) : GoFloat :=
  if goLt x (.fin 0) then goNeg x else x

/-- Source `floatEq`: equal iff both +Inf, both -Inf, both NaN, or
`abs(a-b) <= eps` under IEEE evaluation. -/
def floatEq (a b eps : GoFloat) : Bool :=
  (isPosInf a && isPosInf b) ||
  (isNegInf a && isNegInf b) ||
  (isNaN a && isNaN b) ||
  goLe (goAbs (goSub a b)) eps

/-- `floatEq x x 0` is true for every double, NaN and infinities included. -/
theorem floatEq_self_zero (x : GoFloat) : floatEq x x (.fin 0) = true := by
  cases x <;>
    simp [floatEq, isPosInf, isNegInf, isNaN, goSub, goAbs, goLt, goNeg, goLe]

/-- C3: `floatEq(a, b, eps)` is true iff both operands are +Inf, or both are
-Inf, or both are NaN, or the IEEE evaluation of `abs(a-b) <= eps` holds;
with `eps = 0` it is exact equality of the modelled doubles (so NaN still
equals NaN and infinities of matching sign are still equal), and on finite
operands with finite epsilon it is exactly `|a - b| <= eps`. -/
theorem c3_floatEq_spec :
    ∀ a b eps : GoFloat,
      (floatEq a b eps = true ↔
        (a = .pinf ∧ b = .pinf) ∨ (a = .ninf ∧ b = .ninf) ∨
        (a = .nan ∧ b = .nan) ∨ goLe (goAbs (goSub a b)) eps = true) ∧
      (floatEq a b (.fin 0) = decide (a = b)) ∧
      (∀ x y e : ℚ, floatEq (.fin x) (.fin y) (.fin e) = decide (|x - y| ≤ e)) := by
  have habs : ∀ x y : ℚ, goAbs (goSub (.fin x) (.fin y)) = .fin |x - y| := by
    intro x y
    by_cases h : x - y < 0
    · simp [goSub, goAbs, goLt, goNeg, h, abs_of_neg h]
    · simp [goSub, goAbs, goLt, goNeg, h, abs_of_nonneg (not_lt.mp h)]
  have key : ∀ u e : ℚ, (decide (u < e) || decide (u = e)) = decide (u ≤ e) := by
    intro u e
    by_cases hle : u ≤ e
    · rcases lt_or_eq_of_le hle with h | h
      · simp [h, hle]
      · simp [h, hle]
    · have h1 : ¬ u < e := fun hc => hle (le_of_lt hc)
      have h2 : u ≠ e := fun hc => hle (le_of_eq hc)
      simp [h1, h2, hle]
  have hfin : ∀ x y e : ℚ,
      floatEq (.fin x) (.fin y) (.fin e) = decide (|x - y| ≤ e) := by
    intro x y e
    have h1 : floatEq (.fin x) (.fin y) (.fin e)
        = goLe (.fin |x - y|) (.fin e) := by
      simp [floatEq, isPosInf, isNegInf, isNaN, habs x y]
    rw [h1]
    simpa [goLe, goLt] using key |x - y| e
  intro a b eps
  refine ⟨?_, ?_, hfin⟩
  · cases a <;> cases b <;>
      simp [floatEq, isPosInf, isNegInf, isNaN]
  · cases a <;> cases b <;>
      first
        | (rw [hfin]
           simp [abs_nonpos_iff, sub_eq_zero])
        | simp [floatEq, isPosInf, isNegInf, isNaN, goSub, goAbs, goLt, goLe,
            goNeg]

/-! ## The value model -/

/-- Go integer kinds with a sign bit: `int, int8, int16, int32, int64`. -/
inductive IntK where
  | iK | i8 | i16 | i32 | i64
deriving DecidableEq

/-- Go unsigned integer kinds: `uint, uint8, uint16, uint32, uint64, uintptr`. -/
inductive UintK where
  | uK | u8 | u16 | u32 | u64 | uptr
deriving DecidableEq

/-- The shape of a Go type: its reflect kind together with the element /
field / value types (as type tags), which is everything `deepValueEqual`
inspects about a type.  Type tags (`Nat`) may refer back to themselves,
which represents recursive Go types such as `type M map[string]M`.
`arrayS` records the length because in Go it is part of the array type. -/
inductive TyShape where
  | boolS
  | intS (k : IntK)
  | uintS (k : UintK)
  | floatS (bits : Nat)
  | complexS (bits : Nat)
  | stringS
  | arrayS (len : Nat) (elem : Nat)
  | sliceS (elem : Nat)
  | mapS (val : Nat)
  | ptrS (elem : Nat)
  | structS (fields : List Nat)
  | ifaceS
  | funcS
  | chanS
  | unsafePtrS
deriving DecidableEq

/-- The payload stored in one heap cell.  Composite payloads hold the
addresses of the cells of their components; `none` data in a slice or map
is Go's nil slice/map, a `ptrO 0` is a nil pointer, a `funcO 0` a nil
function, an `ifaceO none` a nil interface.  Map entries pair an abstract
key (keys are only ever used as lookup indices by the comparator, never
compared recursively) with the address of the value cell. -/
inductive HObj where
  | boolO (b : Bool)
  | intO (v : Int)
  | uintO (v : Nat)
  | floatO (v : GoFloat)
  | complexO (re im : GoFloat)
  | strO (bytes : List Nat)
  | arrayO (elems : List Nat)
  | structO (fields : List Nat)
  | sliceO (data : Option (Nat × List Nat))
  | mapO (data : Option (Nat × List (Nat × Nat)))
  | ptrO (target : Nat)
  | ifaceO (elem : Option Nat)
  | funcO (p : Nat)
  | chanO (p : Nat)
  | uptrO (p : Nat)
deriving DecidableEq

/-- One heap cell: the tag of its Go type plus its payload. -/
structure Cell where
  ty : Nat
  obj : HObj
deriving DecidableEq

/-- The environment a comparison runs in: the type environment (tag to
shape) and the heap (address to cell). -/
structure Env where
  tyShape : Nat → TyShape
  heap : Nat → Cell

/-- A `reflect.Value`: the zero Value (`invalid`), or a `CanAddr` flag plus
the address of the cell holding the data (its `UnsafeAddr`). -/
inductive RVal where
  | invalid
  | mk (canAddr : Bool) (addr : Nat)
deriving DecidableEq

/-- `v.Type()` as a tag (only called on valid values by the source; the
value for `invalid` is junk and never reached without a preceding
`panicked`). -/
def tyOf (E : Env) : RVal → Nat
  | .invalid => 0
  | .mk _ a => (E.heap a).ty

/-- `v.Type().Kind()` as a shape. -/
def shapeOf (E : Env) (v : RVal) : TyShape :=
  E.tyShape (tyOf E v)

/-- The payload `v` designates. -/
def objOf (E : Env) : RVal → HObj
  | .invalid => .boolO false
  | .mk _ a => (E.heap a).obj

/-- Shape-level test for the signed-integer kinds. -/
def kIsInt : TyShape → Bool
  | .intS _ => true
  | _ => false

/-- Shape-level test for the unsigned-integer kinds (incl. `uintptr`). -/
def kIsUint : TyShape → Bool
  | .uintS _ => true
  | _ => false

/-- Shape-level test for the float kinds. -/
def kIsFloat : TyShape → Bool
  | .floatS _ => true
  | _ => false

/-- Shape-level test for the complex kinds. -/
def kIsComplex : TyShape → Bool
  | .complexS _ => true
  | _ => false

/-- Shape-level test for the string kind. -/
def kIsString : TyShape → Bool
  | .stringS => true
  | _ => false

/-- Shape-level test for the bool kind. -/
def kIsBool : TyShape → Bool
  | .boolS => true
  | _ => false

/-- Shape-level test for the unsafe-pointer kind. -/
def kIsUnsafePtr : TyShape → Bool
  | .unsafePtrS => true
  | _ => false

/-- Source `isSignedInteger`. -/
def isSignedInteger (E : Env) (v : RVal) : Bool :=
  kIsInt (shapeOf E v)

/-- Source `isUnsignedInteger`. -/
def isUnsignedInteger (E : Env) (v : RVal) : Bool :=
  kIsUint (shapeOf E v)

/-- Source `isInteger`. -/
def isInteger (E : Env) (v : RVal) : Bool :=
  isSignedInteger E v || isUnsignedInteger E v

/-- Source `isFloat`. -/
def isFloat (E : Env) (v : RVal) : Bool :=
  kIsFloat (shapeOf E v)

/-- Source `isComplex`. -/
def isComplex (E : Env) (v : RVal) : Bool :=
  kIsComplex (shapeOf E v)

/-- Source `canBeString`: a string, or a slice whose element kind is
`uint8` (byte) or `int32` (rune). -/
def canBeString (E : Env) (v : RVal) : Bool :=
  match shapeOf E v with
  | .stringS => true
  | .sliceS e =>
    (match E.tyShape e with
     | .uintS .u8 => true
     | .intS .i32 => true
     | _ => false)
  | _ => false

/-- `v.Bool()` (junk payloads yield a harmless default; well-formed heaps
always match payload to kind). -/
def rBool (E : Env) (v : RVal) : Bool :=
  match objOf E v with
  | .boolO b => b
  | _ => false

/-- `v.Int()` (an `int64`). -/
def rInt (E : Env) (v : RVal) : Int :=
  match objOf E v with
  | .intO i => i
  | _ => 0

/-- `v.Uint()` (a `uint64`). -/
def rUint (E : Env) (v : RVal) : Nat :=
  match objOf E v with
  | .uintO u => u
  | _ => 0

/-- `v.Float()` (a `float64`; float32 cells store the double they widen to). -/
def rFloat (E : Env) (v : RVal) : GoFloat :=
  match objOf E v with
  | .floatO f => f
  | _ => .fin 0

/-- `real(v.Complex())`. -/
def rComplexRe (E : Env) (v : RVal) : GoFloat :=
  match objOf E v with
  | .complexO re _ => re
  | _ => .fin 0

/-- `imag(v.Complex())`. -/
def rComplexIm (E : Env) (v : RVal) : GoFloat :=
  match objOf E v with
  | .complexO _ im => im
  | _ => .fin 0

/-- `v.String()` as its byte sequence. -/
def rStr (E : Env) (v : RVal) : List Nat :=
  match objOf E v with
  | .strO s => s
  | _ => []

/-- `v.IsNil()` for the nilable kinds. -/
def rIsNil (E : Env) (v : RVal) : Bool :=
  match objOf E v with
  | .sliceO none => true
  | .mapO none => true
  | .ptrO t => decide (t = 0)
  | .ifaceO none => true
  | .funcO p => decide (p = 0)
  | _ => false

/-- `v.Len()` for slices, arrays, strings and maps. -/
def rLen (E : Env) (v : RVal) : Nat :=
  match objOf E v with
  | .sliceO (some (_, es)) => es.length
  | .arrayO es => es.length
  | .strO s => s.length
  | .mapO (some (_, kvs)) => kvs.length
  | _ => 0

/-- `v.Pointer()`: the data pointer of a slice/map, the target of a
pointer, the code pointer of a func, the raw value of an unsafe pointer
(nil values yield 0). -/
def rPointer (E : Env) (v : RVal) : Nat :=
  match objOf E v with
  | .sliceO (some (p, _)) => p
  | .mapO (some (p, _)) => p
  | .ptrO t => t
  | .funcO p => p
  | .chanO p => p
  | .uptrO p => p
  | _ => 0

/-- `v.Index(i)`: array elements inherit the parent's addressability,
slice elements are always addressable. -/
def rIndex (E : Env) (v : RVal) (i : Nat) : RVal :=
  match v with
  | .invalid => .invalid
  | .mk ca a =>
    match (E.heap a).obj with
    | .arrayO es => if i < es.length then .mk ca (es.getD i 0) else .invalid
    | .sliceO (some (_, es)) =>
      if i < es.length then .mk true (es.getD i 0) else .invalid
    | _ => .invalid

/-- `v.NumField()`. -/
def rNumField (E : Env) (v : RVal) : Nat :=
  match objOf E v with
  | .structO fs => fs.length
  | _ => 0

/-- `v.Field(i)`: fields inherit the parent's addressability. -/
def rField (E : Env) (v : RVal) (i : Nat) : RVal :=
  match v with
  | .invalid => .invalid
  | .mk ca a =>
    match (E.heap a).obj with
    | .structO fs => if i < fs.length then .mk ca (fs.getD i 0) else .invalid
    | _ => .invalid

/-- `v.MapKeys()` (iteration order is the entry order of the model). -/
def rMapKeys (E : Env) (v : RVal) : List Nat :=
  match objOf E v with
  | .mapO (some (_, kvs)) => kvs.map Prod.fst
  | _ => []

/-- `v.MapIndex(k)`: a non-addressable copy of the stored value, the zero
Value when the key is absent. -/
def rMapIndex (E : Env) (v : RVal) (k : Nat) : RVal :=
  match objOf E v with
  | .mapO (some (_, kvs)) =>
    (match kvs.lookup k with
     | some va => .mk false va
     | none => .invalid)
  | _ => .invalid

/-- `v.Elem()` of an interface: a non-addressable view of the contents. -/
def rIfaceElem (E : Env) (v : RVal) : RVal :=
  match objOf E v with
  | .ifaceO (some e) => .mk false e
  | _ => .invalid

/-- `v.Elem()` of a pointer: the (addressable) target, or the zero Value
for a nil pointer. -/
def rPtrElem (E : Env) (v : RVal) : RVal :=
  match objOf E v with
  | .ptrO t => if t = 0 then .invalid else .mk true t
  | _ => .invalid

/-- `uint64(i)` for an `int64` operand (two's complement bit pattern). -/
def uint64ofInt (i : Int) : Nat :=
  (i % (2 ^ 64 : Int)).toNat

/-- Source `toUint64`: the 64-bit pattern of either integer flavour. -/
def toUint64 (E : Env) (v : RVal) : Nat :=
  if isSignedInteger E v then uint64ofInt (rInt E v) else rUint E v

/-- Source `intToFloat64`. -/
def intToFloat64 (E : Env) (v : RVal) : GoFloat :=
  if isSignedInteger E v then .fin (rInt E v : ℚ) else .fin (rUint E v : ℚ)

/-- Go's UTF-8 encoding of one rune as used by `string([]rune)`:
out-of-range or surrogate runes encode as U+FFFD. -/
def utf8Encode (r : Int) : List Nat :=
  if 0 ≤ r ∧ r < 0x80 then [r.toNat]
  else if 0 ≤ r ∧ r < 0x800 then
    [0xC0 + r.toNat / 0x40, 0x80 + r.toNat % 0x40]
  else if 0 ≤ r ∧ r < 0x10000 ∧ ¬ (0xD800 ≤ r ∧ r < 0xE000) then
    [0xE0 + r.toNat / 0x1000, 0x80 + (r.toNat / 0x40) % 0x40,
     0x80 + r.toNat % 0x40]
  else if 0x10000 ≤ r ∧ r ≤ 0x10FFFF then
    [0xF0 + r.toNat / 0x40000, 0x80 + (r.toNat / 0x1000) % 0x40,
     0x80 + (r.toNat / 0x40) % 0x40, 0x80 + r.toNat % 0x40]
  else [0xEF, 0xBF, 0xBD]

/-- The byte stored in a `uint8` element cell. -/
def readByteCell (E : Env) (a : Nat) : Nat :=
  match (E.heap a).obj with
  | .uintO u => u
  | _ => 0

/-- The rune stored in an `int32` element cell. -/
def readRuneCell (E : Env) (a : Nat) : Int :=
  match (E.heap a).obj with
  | .intO i => i
  | _ => 0

/-- Source `toBytes`: a string's bytes, a byte slice's bytes, or the UTF-8
encoding of a rune slice. -/
def toBytes (E : Env) (v : RVal) : List Nat :=
  match shapeOf E v with
  | .stringS => rStr E v
  | .sliceS e =>
    (let es := match objOf E v with
       | .sliceO (some (_, es)) => es
       | _ => []
     match E.tyShape e with
     | .uintS .u8 => es.map (readByteCell E)
     | _ => (es.map (fun a => utf8Encode (readRuneCell E a))).flatten)
  | _ => []

/-! ## The comparator -/

/-- Result of a run of the comparator: a boolean verdict, a Go runtime
panic, or fuel exhaustion (the recursion did not finish within the given
depth). -/
inductive Res where
  | ok (b : Bool)
  | panicked
  | out
deriving DecidableEq

/-- A visited-set entry: canonically ordered pair of `UnsafeAddr`s plus the
shared type tag (source type `visit`). -/
abbrev VKey := Nat × Nat × Nat

/-- The visited set, threaded like the source's shared mutable map. -/
abbrev VL := List VKey

/-- Source `hard`: the kinds that may be part of a reference cycle. -/
def isHard : TyShape → Bool
  | .mapS _ => true
  | .sliceS _ => true
  | .ptrS _ => true
  | .ifaceS => true
  | _ => false

/-- The element-wise loop of the array/slice/struct cases: compare the
pairs in order, stopping at the first result that is not `ok true`. -/
def dveList (go : RVal → RVal → VL → Res × VL) :
    List (RVal × RVal) → VL → Res × VL
  | [], vis => (.ok true, vis)
  | (x, y) :: rest, vis =>
    match go x y vis with
    | (.ok true, vis1) => dveList go rest vis1
    | r => r

/-- The key loop of the map case: for each key of the first map, both
lookups must be valid and the values recursively equal. -/
def dveMapKeys (E : Env) (go : RVal → RVal → VL → Res × VL)
    (v1 v2 : RVal) : List Nat → VL → Res × VL
  | [], vis => (.ok true, vis)
  | k :: ks, vis =>
    let val1 := rMapIndex E v1 k
    let val2 := rMapIndex E v2 k
    if val1 = RVal.invalid ∨ val2 = RVal.invalid then (.ok false, vis)
    else
      match go val1 val2 vis with
      | (.ok true, vis1) => dveMapKeys E go v1 v2 ks vis1
      | r => r

/-- The kind dispatch of `deepValueEqual` (the `switch v1.Kind()` of the
source), for two operands of the same type.  The source switch has no
`Chan` case, so channels fall into `default: return false`. -/
def dveKind (E : Env) (eps : GoFloat) (go : RVal → RVal → VL → Res × VL)
    (shape : TyShape) (v1 v2 : RVal) (vis : VL) : Res × VL :=
  match shape with
  | .arrayS _ _ =>
    (let es1 := match objOf E v1 with
       | .arrayO es => es
       | _ => []
     dveList go
       ((List.range es1.length).map fun i => (rIndex E v1 i, rIndex E v2 i))
       vis)
  | .sliceS _ =>
    if rIsNil E v1 && decide (rLen E v2 = 0) then (.ok true, vis)
    else if decide (rLen E v1 = 0) && rIsNil E v2 then (.ok true, vis)
    else if rIsNil E v1 ≠ rIsNil E v2 then (.ok false, vis)
    else if rLen E v1 ≠ rLen E v2 then (.ok false, vis)
    else if rPointer E v1 = rPointer E v2 then (.ok true, vis)
    else
      dveList go
        ((List.range (rLen E v1)).map fun i => (rIndex E v1 i, rIndex E v2 i))
        vis
  | .ifaceS =>
    if rIsNil E v1 || rIsNil E v2 then
      (.ok (decide (rIsNil E v1 = rIsNil E v2)), vis)
    else go (rIfaceElem E v1) (rIfaceElem E v2) vis
  | .ptrS _ =>
    if rPointer E v1 = rPointer E v2 then (.ok true, vis)
    else go (rPtrElem E v1) (rPtrElem E v2) vis
  | .structS _ =>
    dveList go
      ((List.range (rNumField E v1)).map fun i => (rField E v1 i, rField E v2 i))
      vis
  | .mapS _ =>
    if rIsNil E v1 ≠ rIsNil E v2 then (.ok false, vis)
    else if rLen E v1 ≠ rLen E v2 then (.ok false, vis)
    else if rPointer E v1 = rPointer E v2 then (.ok true, vis)
    else dveMapKeys E go v1 v2 (rMapKeys E v1) vis
  | .funcS =>
    if rIsNil E v1 && rIsNil E v2 then (.ok true, vis)
    else (.ok (decide (rPointer E v1 = rPointer E v2)), vis)
  | .boolS =>
    (.ok (kIsBool (shapeOf E v2) && decide (rBool E v1 = rBool E v2)), vis)
  | .uintS _ =>
    (.ok (kIsUint (shapeOf E v2) && decide (rUint E v1 = rUint E v2)), vis)
  | .intS _ =>
    (.ok (kIsInt (shapeOf E v2) && decide (rInt E v1 = rInt E v2)), vis)
  | .floatS _ =>
    (.ok (kIsFloat (shapeOf E v2) && floatEq (rFloat E v1) (rFloat E v2) eps),
     vis)
  | .complexS _ =>
    (.ok (kIsComplex (shapeOf E v2) &&
          (floatEq (rComplexRe E v1) (rComplexRe E v2) eps &&
           floatEq (rComplexIm E v1) (rComplexIm E v2) eps)), vis)
  | .stringS =>
    (.ok (kIsString (shapeOf E v2) && decide (rStr E v1 = rStr E v2)), vis)
  | .unsafePtrS =>
    (.ok (kIsUnsafePtr (shapeOf E v2) && decide (rPointer E v1 = rPointer E v2)),
     vis)
  | .chanS => (.ok false, vis)

/-- Source `deepValueEqual`, with fuel.  `v.Type()` on the zero Value is a
runtime panic; with differing types the cross-type coercion block of the
source runs (note the source's line `if isComplex(v1) && isComplex(v1)`
which tests `v1` twice: when `v1` is complex and `v2` is not,
`v2.Complex()` panics); with equal types the visited set is consulted for
hard kinds whose operands are both addressable, and then the kind dispatch
runs. -/
def dve (E : Env) (eps : GoFloat) :
    Nat → RVal → RVal → VL → Res × VL
  | 0, _, _, vis => (.out, vis)
  | fuel + 1, v1, v2, vis =>
    match v1, v2 with
    | .invalid, _ => (.panicked, vis)
    | .mk _ _, .invalid => (.panicked, vis)
    | .mk ca1 a1, .mk ca2 a2 =>
      let w1 : RVal := .mk ca1 a1
      let w2 : RVal := .mk ca2 a2
      let t1 := (E.heap a1).ty
      let t2 := (E.heap a2).ty
      if t1 ≠ t2 then
        if canBeString E w1 && canBeString E w2 then
          (.ok (decide (toBytes E w1 = toBytes E w2)), vis)
        else if isInteger E w1 && isInteger E w2 then
          if isSignedInteger E w1 ≠ isSignedInteger E w2 then
            -- one signed, one unsigned; make the unsigned one the first
            (let p := if isSignedInteger E w1 then (w2, w1) else (w1, w2)
             let i2 := rInt E p.2
             if i2 < 0 then (.ok false, vis)
             else (.ok (decide (rUint E p.1 = uint64ofInt i2)), vis))
          else (.ok (decide (toUint64 E w1 = toUint64 E w2)), vis)
        else if isFloat E w1 && isFloat E w2 then
          (.ok (floatEq (rFloat E w1) (rFloat E w2) eps), vis)
        else if isComplex E w1 && isComplex E w1 then
          -- source line 233 tests isComplex(v1) twice; v2.Complex() panics
          -- when v2 is not complex
          (if isComplex E w2 then
            (.ok (floatEq (rComplexRe E w1) (rComplexRe E w2) eps &&
                  floatEq (rComplexIm E w1) (rComplexIm E w2) eps), vis)
          else (.panicked, vis))
        else
          -- integer against float: make the integer the first operand
          (let p := if isInteger E w2 then (w2, w1) else (w1, w2)
           if isInteger E p.1 && isFloat E p.2 then
             (.ok (floatEq (intToFloat64 E p.1) (rFloat E p.2) eps), vis)
           else (.ok false, vis))
      else
        let shape := E.tyShape t1
        if ca1 && ca2 && isHard shape then
          let key : VKey := if a2 < a1 then (a2, a1, t1) else (a1, a2, t1)
          if key ∈ vis then (.ok true, vis)
          else dveKind E eps (dve E eps fuel) shape w1 w2 (key :: vis)
        else dveKind E eps (dve E eps fuel) shape w1 w2 vis

/-- The nil-operand handling of the source `deepEqual` once the nil
operand has been swapped into first position: a slice compares equal to
nil iff it is nil or empty, a pointer iff it is nil; every other kind
falls through to `deepValueEqual` with a zero Value, which panics. -/
def deepEqualNil (E : Env) (fuel : Nat) (yv : RVal) (eps : GoFloat) : Res :=
  match shapeOf E yv with
  | .sliceS _ => .ok (rIsNil E yv || decide (rLen E yv = 0))
  | .ptrS _ => .ok (rIsNil E yv)
  | _ => (dve E eps fuel .invalid yv []).1

/-- Source `deepEqual`: operands are `interface{}` values, `none` being a
nil interface. -/
def deepEqual (E : Env) (fuel : Nat) (x y : Option RVal) (eps : GoFloat) :
    Res :=
  match x, y with
  | none, none => .ok true
  | some xv, none => deepEqualNil E fuel xv eps
  | none, some yv => deepEqualNil E fuel yv eps
  | some xv, some yv => (dve E eps fuel xv yv []).1

/-! ## The assertion wrappers -/

/-- The default epsilon of `Eq`/`Neq` (the source literal `1e-6`). -/
def eps1e6 : GoFloat := .fin (1 / 1000000)

/-- What a wrapper call did to the `Tester`: nothing, one `Errorf` with the
given message, or a crash of the comparator (panic / non-termination).
The `%#v` verbose representations of the operands are supplied as strings
by the caller of the model, and message parts are modelled as their
`fmt.Sprint` renderings (for string parts `fmt.Sprint` concatenates them
unchanged). -/
inductive TOut where
  | quiet
  | reported (msg : String)
  | crashed
deriving DecidableEq

/-- Source `errorf`: `t.Errorf("%s%#v %s %#v", prefix, a, op, b)` where
`prefix` is `fmt.Sprint(msg...) + ": "` when at least one message part was
given and empty otherwise. -/
def errorfMsg (op aR bR : String) (parts : List String) : String :=
  (if parts.length > 0 then String.join parts ++ ": " else "") ++
    aR ++ " " ++ op ++ " " ++ bR

namespace Check

/-- Source `EqEps`: report `a != b` when `deepEqual(a, b, epsilon)` is
false. -/
def EqEps (E : Env) (fuel : Nat) (a b : Option RVal) (eps : GoFloat)
    (aR bR : String) (parts : List String) : TOut :=
  match deepEqual E fuel a b eps with
  | .ok true => .quiet
  | .ok false => .reported (errorfMsg "!=" aR bR parts)
  | _ => .crashed

/-- Source `Eq`: `EqEps` with the default epsilon `1e-6`. -/
def Eq (E : Env) (fuel : Nat) (a b : Option RVal)
    (aR bR : String) (parts : List String) : TOut :=
  EqEps E fuel a b eps1e6 aR bR parts

/-- Source `EqExact`: `EqEps` with epsilon `0`. -/
def EqExact (E : Env) (fuel : Nat) (a b : Option RVal)
    (aR bR : String) (parts : List String) : TOut :=
  EqEps E fuel a b (.fin 0) aR bR parts

/-- Source `NeqEps`: report `a == b` when `deepEqual(a, b, epsilon)` is
true. -/
def NeqEps (E : Env) (fuel : Nat) (a b : Option RVal) (eps : GoFloat)
    (aR bR : String) (parts : List String) : TOut :=
  match deepEqual E fuel a b eps with
  | .ok true => .reported (errorfMsg "==" aR bR parts)
  | .ok false => .quiet
  | _ => .crashed

/-- Source `Neq`: `NeqEps` with the default epsilon `1e-6`. -/
def Neq (E : Env) (fuel : Nat) (a b : Option RVal)
    (aR bR : String) (parts : List String) : TOut :=
  NeqEps E fuel a b eps1e6 aR bR parts

/-- Source `NeqExact`: `NeqEps` with epsilon `0`. -/
def NeqExact (E : Env) (fuel : Nat) (a b : Option RVal)
    (aR bR : String) (parts : List String) : TOut :=
  NeqEps E fuel a b (.fin 0) aR bR parts

end Check

/-! ## A concrete environment for the witnesses and counterexamples -/

/-- Type tags of the demonstration environment: `int`, `int8`, `int64`,
`uint64`, `float64`, `complex128`, `string`, `[]byte`, `byte`, `[]rune`,
`rune`, `[]int`, `map[K]int`, the recursive `type M map[K]M`,
`type R struct { self *R }`, `*R`, and `chan int`. -/
def demoTy : Nat → TyShape := fun t =>
  if t = 1 then .intS .iK
  else if t = 2 then .intS .i8
  else if t = 3 then .intS .i64
  else if t = 4 then .uintS .u64
  else if t = 5 then .floatS 64
  else if t = 6 then .complexS 128
  else if t = 7 then .stringS
  else if t = 8 then .sliceS 9
  else if t = 9 then .uintS .u8
  else if t = 10 then .sliceS 11
  else if t = 11 then .intS .i32
  else if t = 12 then .sliceS 1
  else if t = 13 then .mapS 1
  else if t = 14 then .mapS 14
  else if t = 15 then .structS [16]
  else if t = 16 then .ptrS 15
  else if t = 17 then .chanS
  else .boolS

/-- Heap of the demonstration environment.  Cells 19/20 are the two maps
of type `M` with `m1[k] = m2` and `m2[k] = m1`; cells 21/23 are the two
boxed copies of a record `r` of type `R` with `r.self = &r`, cell 25 being
the original `r` both copies' `self` fields point to. -/
def demoHeap : Nat → Cell := fun a =>
  if a = 1 then ⟨1, .intO 5⟩
  else if a = 2 then ⟨2, .intO 5⟩
  else if a = 3 then ⟨3, .intO (-1)⟩
  else if a = 4 then ⟨4, .uintO 18446744073709551615⟩
  else if a = 5 then ⟨4, .uintO 5⟩
  else if a = 6 then ⟨7, .strO [97, 98, 99]⟩
  else if a = 7 then ⟨8, .sliceO (some (100, [8, 9, 10]))⟩
  else if a = 8 then ⟨9, .uintO 97⟩
  else if a = 9 then ⟨9, .uintO 98⟩
  else if a = 10 then ⟨9, .uintO 99⟩
  else if a = 11 then ⟨10, .sliceO (some (101, [12, 13, 14]))⟩
  else if a = 12 then ⟨11, .intO 97⟩
  else if a = 13 then ⟨11, .intO 98⟩
  else if a = 14 then ⟨11, .intO 99⟩
  else if a = 15 then ⟨12, .sliceO none⟩
  else if a = 16 then ⟨12, .sliceO (some (102, []))⟩
  else if a = 17 then ⟨13, .mapO none⟩
  else if a = 18 then ⟨13, .mapO (some (103, []))⟩
  else if a = 19 then ⟨14, .mapO (some (104, [(0, 20)]))⟩
  else if a = 20 then ⟨14, .mapO (some (105, [(0, 19)]))⟩
  else if a = 21 then ⟨15, .structO [22]⟩
  else if a = 22 then ⟨16, .ptrO 25⟩
  else if a = 23 then ⟨15, .structO [24]⟩
  else if a = 24 then ⟨16, .ptrO 25⟩
  else if a = 25 then ⟨15, .structO [26]⟩
  else if a = 26 then ⟨16, .ptrO 25⟩
  else if a = 27 then ⟨6, .complexO (.fin 1) (.fin 2)⟩
  else if a = 28 then ⟨17, .chanO 200⟩
  else if a = 29 then ⟨1, .intO 2⟩
  else if a = 30 then ⟨5, .floatO (.fin 1)⟩
  else if a = 31 then ⟨1, .intO 1⟩
  else ⟨0, .boolO false⟩

/-- The demonstration environment. -/
def demoEnv : Env := ⟨demoTy, demoHeap⟩

/-! ## The claims -/

/-- C1: refuted (code bug).  The claim says `deepEqual` never raises and
returns false for any unresolvable mismatch, in particular for one absent
operand against a non-zero scalar.  In the source, a nil interface
against a value whose kind is neither Slice nor Ptr (here `int(5)`, cell 1)
falls through to `deepValueEqual(reflect.ValueOf(nil), ...)`, and
`v1.Type()` on the zero Value panics, for any epsilon and any fuel. -/
theorem c1_deepEqual_nil_scalar :
    ∀ (eps : GoFloat) (n : Nat),
      deepEqual demoEnv (n + 1) none (some (.mk false 1)) eps = .panicked := by
  intro eps n
  simp [deepEqual, deepEqualNil, shapeOf, tyOf, demoEnv, demoTy, demoHeap, dve]

/-- C7: refuted (code bug).  Symmetry fails on the cross-type complex
path: with `a = complex128(1+2i)` (cell 27) and `b = int(5)` (cell 1),
`deepEqual(a, b, eps)` panics — the source tests `isComplex(v1)` twice on
line 233 and then calls `v2.Complex()` on an int Value — while
`deepEqual(b, a, eps)` returns false. -/
theorem c7_complex_asymmetry :
    deepEqual demoEnv 1 (some (.mk false 27)) (some (.mk false 1)) (.fin 0)
      = .panicked ∧
    deepEqual demoEnv 1 (some (.mk false 1)) (some (.mk false 27)) (.fin 0)
      = .ok false := by
  exact ⟨by decide, by decide⟩

/-- C8: counterexample.  Reflexivity does not hold for every kind the
comparator can receive: a channel value (cell 28) compared against itself
returns false, because the source's kind switch has no `Chan` case and
`default:` returns false. -/
theorem c8_chan_cex :
    deepEqual demoEnv 1 (some (.mk false 28)) (some (.mk false 28)) (.fin 0)
      = .ok false ∧
    deepEqual demoEnv 1 (some (.mk false 28)) (some (.mk false 28)) (.fin 0)
      ≠ .ok true := by
  exact ⟨by decide, by decide⟩

/-- C2: refuted (code bug).  Termination does not hold for every cyclic
graph: for the two maps of the recursive type `M` (cells 19 and 20, with
`m1[k] = m2` and `m2[k] = m1`), the comparison runs out of any amount of
fuel — map values are never addressable, so the `CanAddr` guard skips the
visited set and the recursion alternates `(m1,m2), (m2,m1), ...` forever.
The claim's specific instance does hold: for the record `r` with
`r.self = &r` (two boxed copies, cells 21 and 23), `deepEqual(r, r, 0)`
terminates with true via the identical-pointer short circuit. -/
theorem c2_cyclic_termination :
    (∀ n : Nat,
      (dve demoEnv (.fin 0) n (.mk false 19) (.mk false 20) []).1 = .out ∧
      (dve demoEnv (.fin 0) n (.mk false 20) (.mk false 19) []).1 = .out) ∧
    deepEqual demoEnv 3 (some (.mk false 21)) (some (.mk false 23)) (.fin 0)
      = .ok true := by
  constructor
  · intro n
    induction n with
    | zero => exact ⟨rfl, rfl⟩
    | succ m ih =>
      obtain ⟨ih1, ih2⟩ := ih
      constructor
      · rcases h : dve demoEnv (.fin 0) m (.mk false 20) (.mk false 19) []
          with ⟨r, vis⟩
        have hr : r = .out := by
          have h2 := ih2; rw [h] at h2; exact h2
        subst hr
        have h9 : dve (Env.mk demoTy demoHeap) (GoFloat.fin 0) m
            (RVal.mk false 20) (RVal.mk false 19) [] = (Res.out, vis) := h
        simp [dve, dveKind, dveMapKeys, demoEnv, demoTy, demoHeap, isHard,
          canBeString, shapeOf, tyOf, objOf, rIsNil, rLen, rPointer,
          rMapKeys, rMapIndex, List.lookup, h, h9]
      · rcases h : dve demoEnv (.fin 0) m (.mk false 19) (.mk false 20) []
          with ⟨r, vis⟩
        have hr : r = .out := by
          have h2 := ih1; rw [h] at h2; exact h2
        subst hr
        have h9 : dve (Env.mk demoTy demoHeap) (GoFloat.fin 0) m
            (RVal.mk false 19) (RVal.mk false 20) [] = (Res.out, vis) := h
        simp [dve, dveKind, dveMapKeys, demoEnv, demoTy, demoHeap, isHard,
          canBeString, shapeOf, tyOf, objOf, rIsNil, rLen, rPointer,
          rMapKeys, rMapIndex, List.lookup, h, h9]
  · decide

/-- C4: confirmed.  For a signed-integer operand (any width, value `sv`)
against an unsigned-integer operand (any width, value `uv`), `deepEqual`
returns a boolean — false, not a program failure, when `sv` is negative —
and it is true exactly when `sv >= 0` and the numeric values agree.  The
bounds are those of `v.Int()`/`v.Uint()` (int64/uint64). -/
theorem c4_signed_unsigned :
    ∀ (E : Env) (eps : GoFloat) (n : Nat) (vis : VL) (ca1 ca2 : Bool)
      (a b ta tb : Nat) (wa : IntK) (wb : UintK) (sv : Int) (uv : Nat),
      E.heap a = ⟨ta, .intO sv⟩ → E.tyShape ta = .intS wa →
      E.heap b = ⟨tb, .uintO uv⟩ → E.tyShape tb = .uintS wb →
      -2 ^ 63 ≤ sv → sv < 2 ^ 63 → uv < 2 ^ 64 →
      dve E eps (n + 1) (.mk ca1 a) (.mk ca2 b) vis
        = (.ok (decide (0 ≤ sv ∧ (uv : Int) = sv)), vis) := by
  intro E eps n vis ca1 ca2 a b ta tb wa wb sv uv ha hta hb htb hlo hhi hu
  have hne : ta ≠ tb := by
    intro hEq
    rw [hEq, htb] at hta
    cases hta
  simp only [dve]
  rcases lt_or_ge sv 0 with hneg | hpos
  · have hdec : decide (0 ≤ sv ∧ (uv : Int) = sv) = false := by
      simp [not_le.mpr hneg]
    rw [hdec]
    simp [ha, hb, hta, htb, hne, canBeString, shapeOf, tyOf, objOf,
      isInteger, isSignedInteger, isUnsignedInteger, kIsInt, kIsUint,
      rInt, rUint, hneg]
  · have hmod : sv % (2 ^ 64 : Int) = sv :=
      Int.emod_eq_of_lt hpos (by omega)
    have hiff : (uv = sv.toNat) ↔ (0 ≤ sv ∧ (uv : Int) = sv) := by omega
    have hdec : decide (uv = sv.toNat) = decide (0 ≤ sv ∧ (uv : Int) = sv) :=
      decide_eq_decide.mpr hiff
    simp [ha, hb, hta, htb, hne, canBeString, shapeOf, tyOf, objOf,
      isInteger, isSignedInteger, isUnsignedInteger, kIsInt, kIsUint,
      rInt, rUint, not_lt.mpr hpos, uint64ofInt]
    rw [show (18446744073709551616 : Int) = 2 ^ 64 by norm_num, hmod, hdec]
    simp

/-- Witness for C4: `deepEqual(int8(5), uint64(5), 0)` is true and
`deepEqual(int64(-1), uint64(2^64-1), 0)` is false, by applying the
theorem at cells 2/5 and 3/4 of the demonstration environment. -/
theorem c4_signed_unsigned_witness :
    dve demoEnv (.fin 0) 1 (.mk false 2) (.mk false 5) [] = (.ok true, []) ∧
    dve demoEnv (.fin 0) 1 (.mk false 3) (.mk false 4) [] = (.ok false, []) := by
  constructor
  · have h := c4_signed_unsigned demoEnv (.fin 0) 0 [] false false 2 5 2 4
      .i8 .u64 5 5 (by decide) (by decide) (by decide) (by decide)
      (by decide) (by decide) (by decide)
    rw [h]
    decide
  · have h := c4_signed_unsigned demoEnv (.fin 0) 0 [] false false 3 4 3 4
      .i64 .u64 (-1) 18446744073709551615 (by decide) (by decide) (by decide)
      (by decide) (by decide) (by decide) (by decide)
    rw [h]
    decide

/-- C5: confirmed.  Two text-like values of different concrete types
(string, byte slice, or rune slice) compare equal exactly when their
canonical byte representations (`toBytes`) coincide, and the result does
not depend on epsilon. -/
theorem c5_textlike :
    ∀ (E : Env) (eps : GoFloat) (n : Nat) (vis : VL) (ca1 : Bool) (a1 : Nat)
      (ca2 : Bool) (a2 : Nat),
      canBeString E (.mk ca1 a1) = true → canBeString E (.mk ca2 a2) = true →
      tyOf E (.mk ca1 a1) ≠ tyOf E (.mk ca2 a2) →
      dve E eps (n + 1) (.mk ca1 a1) (.mk ca2 a2) vis
        = (.ok (decide (toBytes E (.mk ca1 a1) = toBytes E (.mk ca2 a2))), vis) := by
  intro E eps n vis ca1 a1 ca2 a2 h1 h2 hne
  simp only [tyOf] at hne
  simp only [dve]
  simp [h1, h2, hne]

/-- Witness for C5: `deepEqual("abc", []byte("abc"), 0)` and
`deepEqual("abc", []rune("abc"), 0)` are both true, by applying the
theorem at cells 6/7 and 6/11 of the demonstration environment. -/
theorem c5_textlike_witness :
    dve demoEnv (.fin 0) 1 (.mk false 6) (.mk false 7) [] = (.ok true, []) ∧
    dve demoEnv (.fin 0) 1 (.mk false 6) (.mk false 11) [] = (.ok true, []) := by
  constructor
  · have h := c5_textlike demoEnv (.fin 0) 0 [] false 6 false 7
      (by decide) (by decide) (by decide)
    rw [h]
    decide
  · have h := c5_textlike demoEnv (.fin 0) 0 [] false 6 false 11
      (by decide) (by decide) (by decide)
    rw [h]
    decide

/-- C6: confirmed.  A nil slice compares equal to an empty slice of the
same type, while a nil map compares unequal to an empty map of the same
type, for any epsilon. -/
theorem c6_nil_empty :
    ∀ (E : Env) (eps : GoFloat) (n : Nat) (ts e tm k p q a b c d : Nat),
      E.heap a = ⟨ts, .sliceO none⟩ →
      E.heap b = ⟨ts, .sliceO (some (p, []))⟩ →
      E.tyShape ts = .sliceS e →
      E.heap c = ⟨tm, .mapO none⟩ →
      E.heap d = ⟨tm, .mapO (some (q, []))⟩ →
      E.tyShape tm = .mapS k →
      deepEqual E (n + 1) (some (.mk false a)) (some (.mk false b)) eps
        = .ok true ∧
      deepEqual E (n + 1) (some (.mk false c)) (some (.mk false d)) eps
        = .ok false := by
  intro E eps n ts e tm k p q a b c d ha hb hts hc hd htm
  constructor
  · simp only [deepEqual, dve]
    simp [ha, hb, hts, dveKind, isHard, rIsNil, rLen, rPointer, objOf,
      shapeOf, tyOf]
  · simp only [deepEqual, dve]
    simp [hc, hd, htm, dveKind, isHard, rIsNil, rLen, rPointer, objOf,
      shapeOf, tyOf]

/-- Witness for C6, applying the theorem at cells 15/16 (nil and empty
`[]int`) and 17/18 (nil and empty map) of the demonstration environment. -/
theorem c6_nil_empty_witness :
    deepEqual demoEnv 1 (some (.mk false 15)) (some (.mk false 16)) (.fin 0)
      = .ok true ∧
    deepEqual demoEnv 1 (some (.mk false 17)) (some (.mk false 18)) (.fin 0)
      = .ok false := by
  exact c6_nil_empty demoEnv (.fin 0) 0 12 1 13 1 102 103 15 16 17 18
    (by decide) (by decide) (by decide) (by decide) (by decide) (by decide)

/-- C9: confirmed.  `Eq` reports via `Errorf` exactly when
`deepEqual(a, b, 1e-6)` is false and `Neq` exactly when it is true; the
message is the joined prefix parts followed by `": "`, then the verbose
representation of `a`, the operator (`!=` for a failed equality, `==` for
a failed inequality) and the verbose representation of `b`, the prefix
being omitted entirely when no parts are supplied. -/
theorem c9_report_format :
    (∀ (E : Env) (fuel : Nat) (a b : Option RVal) (aR bR : String)
       (parts : List String) (r : Bool),
       deepEqual E fuel a b eps1e6 = .ok r →
       Check.Eq E fuel a b aR bR parts
         = (if r then .quiet else .reported (errorfMsg "!=" aR bR parts)) ∧
       Check.Neq E fuel a b aR bR parts
         = (if r then .reported (errorfMsg "==" aR bR parts) else .quiet)) ∧
    (∀ op aR bR : String,
       errorfMsg op aR bR [] = aR ++ " " ++ op ++ " " ++ bR) ∧
    (∀ (op aR bR : String) (parts : List String), parts ≠ [] →
       errorfMsg op aR bR parts
         = String.join parts ++ ": " ++ (aR ++ " " ++ op ++ " " ++ bR)) := by
  refine ⟨?_, ?_, ?_⟩
  · intro E fuel a b aR bR parts r h
    constructor
    · cases r <;> simp [Check.Eq, Check.EqEps, h]
    · cases r <;> simp [Check.Neq, Check.NeqEps, h]
  · intro op aR bR
    simp [errorfMsg]
  · intro op aR bR parts hp
    have hlen : parts.length > 0 := by
      cases parts with
      | nil => exact absurd rfl hp
      | cons x xs => simp
    simp [errorfMsg, hlen, String.append_assoc]

/-- Witness for C9: `Eq(t, 1, 2)` reports `"1 != 2"` and
`Neq(t, 1, 1, "x")` reports `"x: 1 == 1"`, by applying the theorem to the
int cells 31 and 29 of the demonstration environment. -/
theorem c9_report_format_witness :
    Check.Eq demoEnv 1 (some (.mk false 31)) (some (.mk false 29)) "1" "2" []
      = .reported "1 != 2" ∧
    Check.Neq demoEnv 1 (some (.mk false 31)) (some (.mk false 31)) "1" "1"
      ["x"] = .reported "x: 1 == 1" := by
  constructor
  · have h := (c9_report_format.1 demoEnv 1 (some (.mk false 31))
      (some (.mk false 29)) "1" "2" [] false (by decide)).1
    rw [h]
    decide
  · have h := (c9_report_format.1 demoEnv 1 (some (.mk false 31))
      (some (.mk false 31)) "1" "1" ["x"] true (by decide)).2
    rw [h]
    decide

/-- C10: confirmed.  No validation of epsilon exists: for any finite
double `q` and any negative epsilon `e`, `floatEq(q, q, e)` is false, so
`EqEps(t, a, a, e)` reports a failure even though both operands are the
identical finite float. -/
theorem c10_negative_epsilon :
    ∀ (q e : ℚ), e < 0 →
      floatEq (.fin q) (.fin q) (.fin e) = false ∧
      (∀ (E : Env) (ca : Bool) (a tf n : Nat) (aR bR : String)
         (parts : List String),
         E.heap a = ⟨tf, .floatO (.fin q)⟩ → E.tyShape tf = .floatS 64 →
         Check.EqEps E (n + 1) (some (.mk ca a)) (some (.mk ca a)) (.fin e)
           aR bR parts = .reported (errorfMsg "!=" aR bR parts)) := by
  intro q e he
  have h1 : ¬ (0 : ℚ) < e := not_lt.mpr (le_of_lt he)
  have h2 : ¬ (0 : ℚ) = e := fun hh => absurd hh.symm (ne_of_lt he)
  have hfe : floatEq (.fin q) (.fin q) (.fin e) = false := by
    simp [floatEq, isPosInf, isNegInf, isNaN, goSub, goAbs, goLt, goLe,
      goNeg, h1, h2]
  refine ⟨hfe, ?_⟩
  intro E ca a tf n aR bR parts ha htf
  have hde : deepEqual E (n + 1) (some (.mk ca a)) (some (.mk ca a)) (.fin e)
      = .ok false := by
    simp only [deepEqual, dve]
    simp [ha, htf, dveKind, isHard, shapeOf, tyOf, objOf, rFloat, kIsFloat,
      hfe]
  simp [Check.EqEps, hde]

/-- Witness for C10: a negative epsilon makes `EqEps` report
`"1 != 1"` for the float64 value 1.0 against itself (cell 30 of the
demonstration environment). -/
theorem c10_negative_epsilon_witness :
    Check.EqEps demoEnv 1 (some (.mk false 30)) (some (.mk false 30))
      (.fin (-1)) "1" "1" [] = .reported "1 != 1" := by
  have h := (c10_negative_epsilon 1 (-1) (by norm_num)).2 demoEnv false 30 5 0
    "1" "1" [] (by decide) (by decide)
  rw [h]
  decide

/-! ## Reflexivity infrastructure (C8) -/

/-- A ranking function witnessing that by-value containment (struct
fields, array elements, interface contents) is well founded, which is
exactly the guarantee Go gives: a value cannot contain itself except
through a pointer, slice, map or function, and the comparator
short-circuits those on identical pointers before recursing. -/
def RankOK (E : Env) (D : Nat → Nat) : Prop :=
  ∀ a : Nat,
    match (E.heap a).obj with
    | .structO fs => ∀ f ∈ fs, D f < D a
    | .arrayO es => ∀ e ∈ es, D e < D a
    | .ifaceO (some e) => D e < D a
    | _ => True

/-- The environment declares no channel types. -/
def NoChanTy (E : Env) : Prop :=
  ∀ t : Nat, E.tyShape t ≠ .chanS

/-- Interface-kinded cells hold interface payloads (a well-formedness
fact that always holds for heaps built from real Go values). -/
def IfaceObjOK (E : Env) : Prop :=
  ∀ a : Nat, E.tyShape (E.heap a).ty = .ifaceS →
    ∃ o, (E.heap a).obj = .ifaceO o

/-- If every pair of an element list compares `ok true` under any visited
set, so does the whole element loop. -/
theorem dveList_all_ok (go : RVal → RVal → VL → Res × VL) :
    ∀ (l : List (RVal × RVal)) (vis : VL),
      (∀ p ∈ l, ∀ vis1 : VL, (go p.1 p.2 vis1).1 = .ok true) →
      (dveList go l vis).1 = .ok true := by
  intro l
  induction l with
  | nil => intro vis _; rfl
  | cons p rest ihl =>
    intro vis h
    rcases p with ⟨x, y⟩
    rcases hp : go x y vis with ⟨r, vis1⟩
    have hr : r = .ok true := by
      have h2 := h (x, y) (by simp) vis
      rw [hp] at h2
      exact h2
    subst hr
    simp only [dveList, hp]
    exact ihl vis1 (fun q hq vis2 => h q (List.mem_cons_of_mem _ hq) vis2)

/-- The kind dispatch compares a well-ranked value against itself as
`ok true` at epsilon 0, given that the recursive comparator does so for
all components of smaller rank. -/
theorem dveKind_refl_ok (E : Env) (D : Nat → Nat)
    (hR : RankOK E D) (hC : NoChanTy E) (hI : IfaceObjOK E)
    (go : RVal → RVal → VL → Res × VL) (ca : Bool) (a : Nat)
    (hgo : ∀ (cb : Bool) (x : Nat) (vis1 : VL),
      D x < D a → (go (.mk cb x) (.mk cb x) vis1).1 = .ok true) :
    ∀ vis : VL,
      (dveKind E (.fin 0) go (E.tyShape (E.heap a).ty) (.mk ca a) (.mk ca a)
        vis).1 = .ok true := by
  intro vis
  rcases hs : E.tyShape (E.heap a).ty with
    _ | k | k | bits | bits | _ | ⟨ln, el⟩ | el | vt | el | fss | _ | _ | _ | _
  · -- bool
    simp [dveKind, shapeOf, tyOf, hs, kIsBool]
  · -- int
    simp [dveKind, shapeOf, tyOf, hs, kIsInt]
  · -- uint
    simp [dveKind, shapeOf, tyOf, hs, kIsUint]
  · -- float
    simp [dveKind, shapeOf, tyOf, hs, kIsFloat, floatEq_self_zero]
  · -- complex
    simp [dveKind, shapeOf, tyOf, hs, kIsComplex, floatEq_self_zero]
  · -- string
    simp [dveKind, shapeOf, tyOf, hs, kIsString]
  · -- array
    rcases ho : (E.heap a).obj with b | i | u | f | ⟨re, im⟩ | s | es | fs | d | d | t | o | p | p | p
    case arrayO =>
      simp only [dveKind, objOf, ho]
      apply dveList_all_ok
      intro q hq vis1
      simp only [List.mem_map, List.mem_range] at hq
      obtain ⟨i, hi, rfl⟩ := hq
      have hidx : rIndex E (.mk ca a) i = .mk ca (es.getD i 0) := by
        simp [rIndex, ho, hi]
      rw [hidx]
      have hmem : es.getD i 0 ∈ es := by
        rw [List.getD_eq_getElem es 0 hi]
        exact List.getElem_mem hi
      have hlt : D (es.getD i 0) < D a := by
        have h2 := hR a
        rw [ho] at h2
        exact h2 _ hmem
      exact hgo ca (es.getD i 0) vis1 hlt
    all_goals simp [dveKind, objOf, ho, dveList]
  · -- slice
    simp only [dveKind]
    by_cases h1 : (rIsNil E (.mk ca a) && decide (rLen E (.mk ca a) = 0)) = true
    · simp [h1]
    · have h1f : (rIsNil E (.mk ca a) && decide (rLen E (.mk ca a) = 0)) = false :=
        eq_false_of_ne_true h1
      have h2f : (decide (rLen E (.mk ca a) = 0) && rIsNil E (.mk ca a)) = false := by
        rw [Bool.and_comm]
        exact h1f
      simp [h1f, h2f]
  · -- map
    simp [dveKind]
  · -- ptr
    simp [dveKind]
  · -- struct
    rcases ho : (E.heap a).obj with b | i | u | f | ⟨re, im⟩ | s | es | fs | d | d | t | o | p | p | p
    case structO =>
      simp only [dveKind, rNumField, objOf, ho]
      apply dveList_all_ok
      intro q hq vis1
      simp only [List.mem_map, List.mem_range] at hq
      obtain ⟨i, hi, rfl⟩ := hq
      have hidx : rField E (.mk ca a) i = .mk ca (fs.getD i 0) := by
        simp [rField, ho, hi]
      rw [hidx]
      have hmem : fs.getD i 0 ∈ fs := by
        rw [List.getD_eq_getElem fs 0 hi]
        exact List.getElem_mem hi
      have hlt : D (fs.getD i 0) < D a := by
        have h2 := hR a
        rw [ho] at h2
        exact h2 _ hmem
      exact hgo ca (fs.getD i 0) vis1 hlt
    all_goals simp [dveKind, rNumField, objOf, ho, dveList]
  · -- interface
    obtain ⟨o, ho⟩ := hI a hs
    rcases o with _ | e
    · simp [dveKind, rIsNil, objOf, ho]
    · have hnil : rIsNil E (.mk ca a) = false := by simp [rIsNil, objOf, ho]
      have helem : rIfaceElem E (.mk ca a) = .mk false e := by
        simp [rIfaceElem, objOf, ho]
      have hlt : D e < D a := by
        have h2 := hR a
        rw [ho] at h2
        exact h2
      simp only [dveKind, hnil, helem, Bool.or_self, Bool.false_eq_true,
        if_false]
      exact hgo false e vis hlt
  · -- func
    simp [dveKind]
  · -- chan: excluded by hypothesis
    exact absurd hs (hC _)
  · -- unsafe pointer
    simp [dveKind, shapeOf, tyOf, hs, kIsUnsafePtr]

/-- `deepValueEqual` compares a well-ranked value against itself as
`ok true` at epsilon 0, for any visited set, given fuel above the rank. -/
theorem dveSelfOk (E : Env) (D : Nat → Nat)
    (hR : RankOK E D) (hC : NoChanTy E) (hI : IfaceObjOK E) :
    ∀ (n : Nat) (ca : Bool) (a : Nat) (vis : VL), D a < n →
      (dve E (.fin 0) n (.mk ca a) (.mk ca a) vis).1 = .ok true := by
  intro n
  induction n with
  | zero => intro ca a vis h; exact absurd h (Nat.not_lt_zero _)
  | succ m ih =>
    intro ca a vis hD
    have hgo : ∀ (cb : Bool) (x : Nat) (vis1 : VL), D x < D a →
        (dve E (.fin 0) m (.mk cb x) (.mk cb x) vis1).1 = .ok true := by
      intro cb x vis1 hx
      exact ih cb x vis1 (by omega)
    simp only [dve]
    rw [if_neg (by simp)]
    by_cases hh : (ca && ca && isHard (E.tyShape (E.heap a).ty)) = true
    · rw [if_pos hh]
      simp only [lt_self_iff_false, if_false]
      by_cases hv : (((a, a, (E.heap a).ty)) : VKey) ∈ vis
      · rw [if_pos hv]
      · rw [if_neg hv]
        exact dveKind_refl_ok E D hR hC hI _ ca a hgo _
    · rw [if_neg hh]
      exact dveKind_refl_ok E D hR hC hI _ ca a hgo _

/-- C8 (amended): `deepEqual(v, v, 0)` is true for the nil interface and
for every value of every kind the comparator handles other than channels —
NaN-containing floats, nil and non-nil functions, maps, slices, pointers,
cyclic records included — provided by-value containment is well founded
(as Go guarantees) and interface cells are well formed.  (Channels are
excluded: the kind switch of the source has no `Chan` case, so a channel
compares false even against itself, see the counterexample.) -/
theorem c8_reflexive (E : Env) (D : Nat → Nat)
    (hR : RankOK E D) (hC : NoChanTy E) (hI : IfaceObjOK E) :
    deepEqual E 1 none none (.fin 0) = .ok true ∧
    ∀ (n : Nat) (ca : Bool) (a : Nat), D a < n →
      deepEqual E n (some (.mk ca a)) (some (.mk ca a)) (.fin 0) = .ok true := by
  constructor
  · rfl
  · intro n ca a hn
    exact dveSelfOk E D hR hC hI n ca a [] hn

/-- Types of the tiny channel-free environment used by the reflexivity
witness: an `int` and a one-field struct around it. -/
def reflTy : Nat → TyShape := fun t =>
  match t with
  | 1 => .intS .iK
  | 2 => .structS [1]
  | _ => .boolS

/-- Heap of the reflexivity witness: cell 2 is a struct whose single
field is the int cell 1. -/
def reflHeap : Nat → Cell := fun a =>
  match a with
  | 1 => ⟨1, .intO 7⟩
  | 2 => ⟨2, .structO [1]⟩
  | _ => ⟨0, .boolO false⟩

/-- The channel-free environment of the reflexivity witness. -/
def reflEnv : Env := ⟨reflTy, reflHeap⟩

/-- A ranking for `reflEnv`: the struct sits above its field. -/
def reflD : Nat → Nat := fun a =>
  match a with
  | 2 => 1
  | _ => 0

/-- Witness for C8 (amended): the struct value of `reflEnv` compares
equal to itself, by applying the reflexivity theorem with the concrete
ranking. -/
theorem c8_reflexive_witness :
    deepEqual reflEnv 2 (some (.mk false 2)) (some (.mk false 2)) (.fin 0)
      = .ok true := by
  have hR : RankOK reflEnv reflD := by
    intro a
    rcases a with _ | (_ | (_ | a))
    · exact trivial
    · exact trivial
    · show ∀ f ∈ [1], reflD f < reflD 2
      decide
    · exact trivial
  have hC : NoChanTy reflEnv := by
    intro t h
    rcases t with _ | (_ | (_ | t)) <;> simp [reflEnv, reflTy] at h
  have hI : IfaceObjOK reflEnv := by
    intro a h
    rcases a with _ | (_ | (_ | a)) <;> simp [reflEnv, reflTy, reflHeap] at h
  exact (c8_reflexive reflEnv reflD hR hC hI).2 2 false 2 (by decide)
